import Mathlib

/-!
Verification of the Infinibrowser HTTP client (`src/client.ts`, the most
complete revision: the one returning a discriminated `FetchResponse`).

The client is embedded shallowly. Platform primitives that are not part of
the repository (the WHATWG `URL` constructor, `fetch`, `JSON.parse`) are
modelled as components of a `World` record, so theorems quantify over every
platform behaviour; JavaScript exceptions are modelled by the `JsError`
type and an `Except`/explicit-outcome discipline that mirrors the source's
`try`/`catch`/`finally` structure. `Headers` normalises header names to
lowercase, which the model reproduces with `String.toLower`; escaping of
special characters inside `JSON.stringify` output is not modelled (no
claim depends on it).
-/

/-- JSON values, as produced by `JSON.parse`. Numbers are modelled as
integers: the client never computes with them. -/
inductive Json where
  | null : Json
  | bool (b : Bool) : Json
  | num (n : Int) : Json
  | str (s : String) : Json
  | arr (elems : List Json) : Json
  | obj (fields : List (String × Json)) : Json

mutual

/-- `JSON.stringify` (escaping of special characters inside strings is not
modelled). -/
def Json.stringify : Json → String
  | .null => "null"
  | .bool b => if b then "true" else "false"
  | .num n => toString n
  | .str s => "\"" ++ s ++ "\""
  | .arr elems => "[" ++ Json.stringifyArr elems ++ "]"
  | .obj fields => "\x7b" ++ Json.stringifyObj fields ++ "\x7d"

/-- Comma-separated serialisation of array elements. -/
def Json.stringifyArr : List Json → String
  | [] => ""
  | [x] => Json.stringify x
  | x :: rest => Json.stringify x ++ "," ++ Json.stringifyArr rest

/-- Comma-separated serialisation of object fields. -/
def Json.stringifyObj : List (String × Json) → String
  | [] => ""
  | [(k, v)] => "\"" ++ k ++ "\":" ++ Json.stringify v
  | (k, v) :: rest => "\"" ++ k ++ "\":" ++ Json.stringify v ++ "," ++ Json.stringifyObj rest

end

/-- A value of the source's `Params` record:
`string | number | boolean | null | undefined`. -/
inductive ParamValue where
  | str (s : String) : ParamValue
  | num (n : Int) : ParamValue
  | bool (b : Bool) : ParamValue
  | null : ParamValue
  | undefined : ParamValue
deriving DecidableEq, Repr

/-- The guard `value !== null && value !== undefined` of `buildUrl`,
negated. -/
def ParamValue.isNullish : ParamValue → Bool
  | .null => true
  | .undefined => true
  | _ => false

/-- JavaScript `String(value)` on a param value. -/
def ParamValue.toStringJS : ParamValue → String
  | .str s => s
  | .num n => toString n
  | .bool b => if b then "true" else "false"
  | .null => "null"
  | .undefined => "undefined"

/-- The source's `Params`: `Object.entries` of a record, in insertion
order. -/
abbrev Params := List (String × ParamValue)

/-- A parsed WHATWG URL: the part before the query, plus its
`searchParams` multimap in entry order. -/
structure Url where
  base : String
  searchParams : List (String × String)
deriving DecidableEq, Repr

/-- The `RequestInit` fields the client uses. A field that is `none` is
absent from the record (TypeScript optional field). Header lists are in
entry order. `signal` holds an abort-controller token. -/
structure RequestInit where
  method : Option String := none
  headers : Option (List (String × String)) := none
  body : Option String := none
  signal : Option Nat := none
deriving DecidableEq, Repr

/-- `new Request(url, requestInit)`. -/
structure Request where
  url : Url
  init : RequestInit
deriving DecidableEq, Repr

/-- The parts of a `Response` the client reads (`clone().text()` is the
pure `bodyText` field). -/
structure Response where
  ok : Bool
  status : Nat
  statusText : String
  bodyText : String
deriving DecidableEq, Repr

/-- JavaScript exception values the client can observe. `SyntaxError` is
what `JSON.parse` throws; `domException name` covers `DOMException`s such
as the abort (`name = "AbortError"`); `typeError` is what the `URL`
constructor throws; `jsError` is a plain `new Error(msg)`. -/
inductive JsError where
  | SyntaxError : JsError
  | domException (name : String) : JsError
  | typeError (msg : String) : JsError
  | jsError (msg : String) : JsError
deriving DecidableEq, Repr

/-- Outcome of one `fetch` call: a settled response, or a rejection. -/
inductive FetchOutcome where
  | resp (r : Response) : FetchOutcome
  | thrown (e : JsError) : FetchOutcome
deriving DecidableEq, Repr

/-- The platform the client runs on: URL parsing (`new URL`, `none` means
the constructor throws `TypeError`), `JSON.parse` (`none` means it throws
`SyntaxError`) and the network. -/
structure World where
  parseUrl : String → Option Url
  jsonParse : String → Option Json
  fetch : Request → FetchOutcome

/-- The `error_code` values of the source's `FetchResponseError` union. -/
inductive TransportCode where
  | SYNTAX_ERROR : TransportCode
  | TIMEOUT : TransportCode
  | UNKNOWN_ERROR : TransportCode
deriving DecidableEq, Repr

/-- The source's `FetchResponseError`: `ok:false` with a transport
`error_code` and the original error value. -/
structure FetchResponseError where
  error_code : TransportCode
  error : JsError
deriving DecidableEq, Repr

/-- The source's `FetchResponse` union (the promise already settled):
success, application error (`ok:false, error_code:"NOT_OK"`), or transport
error. -/
inductive FetchResult where
  | success (data : Json) (response : Response) : FetchResult
  | notOk (data : Json) (response : Response) : FetchResult
  | transport (e : FetchResponseError) : FetchResult

/-- The `ok` discriminant of a result value. -/
def FetchResult.okFlag : FetchResult → Bool
  | .success _ _ => true
  | _ => false

/-- The `error_code` field of a result value, when present. -/
def FetchResult.error_code : FetchResult → Option String
  | .success _ _ => none
  | .notOk _ _ => some "NOT_OK"
  | .transport e =>
    match e.error_code with
    | .SYNTAX_ERROR => some "SYNTAX_ERROR"
    | .TIMEOUT => some "TIMEOUT"
    | .UNKNOWN_ERROR => some "UNKNOWN_ERROR"

/-- `handleError` from the source: `SyntaxError` → `SYNTAX_ERROR`;
`DOMException` named `AbortError` → `TIMEOUT`; any other `DOMException`
and anything else → `UNKNOWN_ERROR`, always carrying the original error. -/
def handleError (e : JsError) : FetchResponseError :=
  match e with
  | .SyntaxError => ⟨.SYNTAX_ERROR, e⟩
  | .domException name =>
    if name = "AbortError" then ⟨.TIMEOUT, e⟩ else ⟨.UNKNOWN_ERROR, e⟩
  | _ => ⟨.UNKNOWN_ERROR, e⟩

/-- `Headers.set`: replace the value of an existing entry in place, else
append a new entry. -/
def headersSet : List (String × String) → String → String → List (String × String)
  | [], k, v => [(k, v)]
  | (k0, v0) :: rest, k, v =>
    if k0 = k then (k0, v) :: rest else (k0, v0) :: headersSet rest k v

/-- `Headers.get` (first matching entry; a set-built list has at most
one). -/
def hLookup : List (String × String) → String → Option String
  | [], _ => none
  | (k0, v0) :: rest, k => if k0 = k then some v0 else hLookup rest k

/-- `Headers` lowercases header names on construction. -/
def lowerEntries (hs : List (String × String)) : List (String × String) :=
  hs.map (fun p => (p.1.toLower, p.2))

/-- Fold `Headers.set` over a list of entries (the `forEach` loop of
`mergeRequests`). -/
def setAll (acc : List (String × String)) (entries : List (String × String)) :
    List (String × String) :=
  entries.foldl (fun a p => headersSet a p.1 p.2) acc

/-- One field of the object spread: the later record's field wins when
present. -/
def spreadField (a b : Option α) : Option α :=
  match b with
  | some x => some x
  | none => a

/-- `mergedResult = { ...mergedResult, ...request }` on the modelled
`RequestInit` fields. -/
def spreadInit (a b : RequestInit) : RequestInit :=
  { method := spreadField a.method b.method,
    headers := spreadField a.headers b.headers,
    body := spreadField a.body b.body,
    signal := spreadField a.signal b.signal }

/-- The body of the `for (const request of requests)` loop of
`mergeRequests`: skip an absent argument, else spread-merge the fields and
fold the argument's headers into the accumulated `Headers` via `set`. -/
def mergeStep (acc : RequestInit × List (String × String)) (oreq : Option RequestInit) :
    RequestInit × List (String × String) :=
  match oreq with
  | none => acc
  | some req =>
    (spreadInit acc.1 req, setAll acc.2 (lowerEntries (req.headers.getD [])))

/-- `mergeRequests(...requests)` from the source: spread-merge the
non-header fields left to right (skipping absent arguments), accumulate
headers through `Headers.set`, then overwrite the `headers` field with
the accumulated headers. -/
def mergeRequests (requests : List (Option RequestInit)) : RequestInit :=
  { (requests.foldl mergeStep ({}, [])).1 with
    headers := some (requests.foldl mergeStep ({}, [])).2 }

/-- `InfinibrowserConfig`: base URL, timeout, optional base request
overrides. -/
structure InfinibrowserConfig where
  API_URL : String
  timeout : Nat
  request : Option RequestInit := none
deriving DecidableEq, Repr

/-- The client: it owns its configuration (`$config` in the source). -/
structure Infinibrowser where
  config : InfinibrowserConfig
deriving DecidableEq, Repr

/-- `$refined(config)`: `new Infinibrowser({ ...this.$config, ...config })`.
The argument's `API_URL` and `timeout` are required fields, so the spread
takes them from the argument; the optional `request` field replaces the
base's wholesale when present. The receiver is untouched (the model is
pure; the source allocates a fresh object). -/
def Infinibrowser.refined (self : Infinibrowser) (config : InfinibrowserConfig) :
    Infinibrowser :=
  ⟨{ API_URL := config.API_URL,
     timeout := config.timeout,
     request := spreadField self.config.request config.request }⟩

/-- The `for (const [key, value] of Object.entries(params))` loop of
`buildUrl`: `searchParams.append` for each non-nullish value, in order. -/
def appendParams (url : Url) : Params → Url
  | [] => url
  | (k, v) :: rest =>
    if v.isNullish then appendParams url rest
    else appendParams { url with searchParams := url.searchParams ++ [(k, v.toStringJS)] } rest

/-- `buildUrl({API_URL, path, params})`: `new URL(API_URL + path)` (which
throws `TypeError` when the string is not a parsable URL), then the append
loop when params were given. -/
def buildUrl (parseUrl : String → Option Url) (apiUrl path : String)
    (params : Option Params) : Except JsError Url :=
  match parseUrl (apiUrl ++ path) with
  | none => .error (.typeError "Invalid URL")
  | some url =>
    .ok (match params with
      | none => url
      | some ps => appendParams url ps)

/-- What one `#fetchWithTimeout` call produced: its settled result, the
requests it handed to `fetch`, and how many cancellation timers it started
(`setTimeout`) and cleared (`clearTimeout` in `finally`). -/
structure FWTOutcome where
  result : FetchResult
  sent : List Request
  timersStarted : Nat
  timersCleared : Nat

/-- The request `#fetchWithTimeout` builds:
`mergeRequests(this.$config.request, init, {signal, headers:
{"Accept-Encoding": "gzip, deflate, identity"}})` wrapped by
`new Request(url, requestInit)`. -/
def Infinibrowser.builtRequest (self : Infinibrowser) (url : Url)
    (init : RequestInit) : Request :=
  { url := url,
    init := mergeRequests
      [self.config.request, some init,
       some { signal := some 0,
              headers := some [("accept-encoding", "gzip, deflate, identity")] }] }

/-- `#fetchWithTimeout`: start the abort timer, send, then branch on
`response.ok`; each branch reads the body text and `JSON.parse`s it; every
thrown error (rejection of `fetch`, parse failure) is caught and mapped by
`handleError`; the `finally` clears the timer on every path, so each
branch's outcome records one started and one cleared timer. -/
def Infinibrowser.fetchWithTimeout (self : Infinibrowser) (w : World)
    (url : Url) (init : RequestInit) : FWTOutcome :=
  let request := self.builtRequest url init
  match w.fetch request with
  | .thrown e => ⟨.transport (handleError e), [request], 1, 1⟩
  | .resp response =>
    match response.ok with
    | false =>
      match w.jsonParse response.bodyText with
      | none => ⟨.transport (handleError .SyntaxError), [request], 1, 1⟩
      | some data => ⟨.notOk data response, [request], 1, 1⟩
    | true =>
      match w.jsonParse response.bodyText with
      | none => ⟨.transport (handleError .SyntaxError), [request], 1, 1⟩
      | some data => ⟨.success data response, [request], 1, 1⟩

/-- Outcome of a public endpoint call: `.error e` models a rejection that
escapes to the caller (a thrown exception), `.ok` a returned result
value. -/
structure CallOutcome where
  result : Except JsError FetchResult
  sent : List Request
  timersStarted : Nat
  timersCleared : Nat

/-- Lift a completed `#fetchWithTimeout` outcome: its result is returned,
never thrown. -/
def FWTOutcome.toCall (o : FWTOutcome) : CallOutcome :=
  ⟨.ok o.result, o.sent, o.timersStarted, o.timersCleared⟩

/-- `#get`: build the URL (a `TypeError` from `new URL` escapes, no timer
is started and nothing is sent), then send with method GET and an
`Accept: application/json` header. -/
def Infinibrowser.get (self : Infinibrowser) (w : World) (path : String)
    (params : Option Params) : CallOutcome :=
  match buildUrl w.parseUrl self.config.API_URL path params with
  | .error e => ⟨.error e, [], 0, 0⟩
  | .ok url =>
    (self.fetchWithTimeout w url
      { method := some "GET", headers := some [("Accept", "application/json")] }).toCall

/-- `#post`: build the URL, then send with method POST, a
`Content-Type: application/json` header and the JSON-serialised payload
(an empty object when none was given). -/
def Infinibrowser.post (self : Infinibrowser) (w : World) (path : String)
    (params : Option Params) (payload : Option Json) : CallOutcome :=
  match buildUrl w.parseUrl self.config.API_URL path params with
  | .error e => ⟨.error e, [], 0, 0⟩
  | .ok url =>
    (self.fetchWithTimeout w url
      { method := some "POST",
        headers := some [("Content-Type", "application/json")],
        body := some (Json.stringify (payload.getD (.obj []))) }).toCall

/-- `getItem(id)`. -/
def Infinibrowser.getItem (self : Infinibrowser) (w : World) (id : String) :
    CallOutcome :=
  self.get w "/item" (some [("id", .str id)])

/-- `getRecipes(id, {offset})`. -/
def Infinibrowser.getRecipes (self : Infinibrowser) (w : World) (id : String)
    (offset : Int) : CallOutcome :=
  self.get w "/recipes" (some [("id", .str id), ("offset", .num offset)])

/-- `getUses(id, {offset})`. -/
def Infinibrowser.getUses (self : Infinibrowser) (w : World) (id : String)
    (offset : Int) : CallOutcome :=
  self.get w "/uses" (some [("id", .str id), ("offset", .num offset)])

/-- `getLineage(id)`. -/
def Infinibrowser.getLineage (self : Infinibrowser) (w : World) (id : String) :
    CallOutcome :=
  self.get w "/recipe" (some [("id", .str id)])

/-- `getCustomLineage(id)`. -/
def Infinibrowser.getCustomLineage (self : Infinibrowser) (w : World)
    (id : String) : CallOutcome :=
  self.get w "/recipe/custom" (some [("id", .str id)])

/-- `optimizeLineage(id)`: POST with query params and the default empty
payload. -/
def Infinibrowser.optimizeLineage (self : Infinibrowser) (w : World)
    (id : String) : CallOutcome :=
  self.post w "/optimize-lineage" (some [("id", .str id)]) none

/-- The result element of a lineage step (`lastStep[2]`): `{id, emoji}`. -/
structure ResultElement where
  id : String
  emoji : String
deriving DecidableEq, Repr

/-- One lineage step: a 3-tuple whose first two components the client does
not interpret and whose third is the result element. -/
structure LineageStep where
  first : Json
  second : Json
  result : ResultElement

/-- JSON form of a step, as serialised inside the payload. -/
def LineageStep.toJson (s : LineageStep) : Json :=
  .arr [s.first, s.second,
        .obj [("id", .str s.result.id), ("emoji", .str s.result.emoji)]]

/-- JSON form of a step sequence. -/
def stepsToJson (steps : List LineageStep) : Json :=
  .arr (steps.map LineageStep.toJson)

/-- The `{id, emoji, steps}` payload `shareLineage` builds from the last
step's result element. -/
def shareLineagePayload (last : LineageStep) (steps : List LineageStep) : Json :=
  .obj [("id", .str last.result.id),
        ("emoji", .str last.result.emoji),
        ("steps", stepsToJson steps)]

/-- `shareLineage(steps)`: `steps.at(-1)`; on an empty sequence the guard
`if (!lastStep) throw new Error("Lineage must not be empty")` fires before
any network work; otherwise POST the payload to `/analytics/share`. -/
def Infinibrowser.shareLineage (self : Infinibrowser) (w : World)
    (steps : List LineageStep) : CallOutcome :=
  match steps.getLast? with
  | none => ⟨.error (.jsError "Lineage must not be empty"), [], 0, 0⟩
  | some lastStep =>
    self.post w "/analytics/share" none (some (shareLineagePayload lastStep steps))

/-- `DEFAULT_OPTIONS` of the source. -/
def DEFAULT_OPTIONS : InfinibrowserConfig :=
  { API_URL := "https://infinibrowser.wiki/api", timeout := 1000 }

/-- A simple concrete model of the URL constructor for witnesses: absolute
http(s) strings parse to a URL with no pre-existing query entries, anything
else throws `TypeError`. -/
def demoParseUrl (s : String) : Option Url :=
  if "https://".data.isPrefixOf s.data || "http://".data.isPrefixOf s.data then
    some ⟨s, []⟩
  else none

/-- The JSON error body the service sends with a 404 from `/item`. -/
def body404 : String := "\x7b\"code\":404,\"message\":\"Unknown element\"\x7d"

/-- The parsed form of `body404`. -/
def json404 : Json := .obj [("code", .num 404), ("message", .str "Unknown element")]

/-- A concrete `JSON.parse` for witnesses: parses the 404 error body and a
small success body, rejects everything else. -/
def demoJsonParse (s : String) : Option Json :=
  if s = body404 then some json404
  else if s = "\x7b\"text\":\"Water\"\x7d" then some (.obj [("text", .str "Water")])
  else none

/-- The 404 response from `/item`. -/
def resp404 : Response := ⟨false, 404, "Not Found", body404⟩

/-- A world whose server answers every request with the 404 error. -/
def world404 : World := ⟨demoParseUrl, demoJsonParse, fun _ => .resp resp404⟩

/-- A world where every fetch is aborted by the timeout. -/
def worldAbort : World :=
  ⟨demoParseUrl, demoJsonParse, fun _ => .thrown (.domException "AbortError")⟩

/-- A world where every fetch rejects with a plain network error. -/
def worldNetDown : World :=
  ⟨demoParseUrl, demoJsonParse, fun _ => .thrown (.jsError "connection reset")⟩

/-- A world returning a 200 whose body is not JSON. -/
def worldBadBody200 : World :=
  ⟨demoParseUrl, demoJsonParse, fun _ => .resp ⟨true, 200, "OK", "<html>"⟩⟩

/-- A world returning a 502 whose body is not JSON. -/
def worldBadBody502 : World :=
  ⟨demoParseUrl, demoJsonParse, fun _ => .resp ⟨false, 502, "Bad Gateway", "<html>"⟩⟩

/-- The client built from `DEFAULT_OPTIONS` (`ib` in the source). -/
def defaultClient : Infinibrowser := ⟨DEFAULT_OPTIONS⟩

/-- A client whose base URL is not a parsable URL. -/
def badUrlClient : Infinibrowser := ⟨{ API_URL := "oops", timeout := 1000 }⟩

/-- Value accumulated so far wins; used to state last-write-wins facts. -/
def orOpt : Option α → Option α → Option α
  | some x, _ => some x
  | none, b => b

/-- The value the last entry with key `k` assigns, if any. -/
def lastWrite : List (String × String) → String → Option String
  | [], _ => none
  | (k0, v0) :: rest, k =>
    orOpt (lastWrite rest k) (if k0 = k then some v0 else none)

/-- The last defined value among a list of optional values. -/
def lastSome : List (Option α) → Option α
  | [] => none
  | x :: rest => orOpt (lastSome rest) x

/-- The request specifications of a `mergeRequests` call that were
actually given (`if (!request) continue`). -/
def presentReqs (requests : List (Option RequestInit)) : List RequestInit :=
  requests.filterMap id

/-- Every header entry contributed by a list of request specifications, in
merge order, names lowercased as `Headers` does. -/
def allHeaderEntries (requests : List (Option RequestInit)) : List (String × String) :=
  ((presentReqs requests).map (fun r => lowerEntries (r.headers.getD []))).flatten

/-- The request-override headers of a config. -/
def configHeaders (c : InfinibrowserConfig) : List (String × String) :=
  ((c.request.getD {}).headers.getD [])

/-- Modelled from the spec: the key-by-key header merge that `$refined` is
claimed to perform on request-option headers ("merged key-by-key, not
replaced wholesale; later sources overwrite earlier ones for same header
key"). -/
def specHeaderMerge (base later : List (String × String)) : List (String × String) :=
  setAll base later

/-- The base config of the `$refined` counterexample: one override header. -/
def cfgBase : InfinibrowserConfig :=
  { API_URL := "https://a.example", timeout := 5,
    request := some { headers := some [("x-base", "1")] } }

/-- The overriding config of the `$refined` counterexample: a different
override header. -/
def cfgOver : InfinibrowserConfig :=
  { API_URL := "https://b.example", timeout := 7,
    request := some { headers := some [("x-extra", "2")] } }

/-- A one-step lineage for witnesses. -/
def demoSteps : List LineageStep :=
  [⟨.str "Earth", .str "Water", ⟨"Plant", "🌱"⟩⟩]

/-! ### Helper lemmas -/

theorem orOpt_none_right (a : Option α) : orOpt a none = a := by
  cases a <;> rfl

theorem orOpt_eq_none_iff (a b : Option α) : orOpt a b = none ↔ a = none ∧ b = none := by
  cases a <;> simp [orOpt]

theorem hLookup_headersSet (hs : List (String × String)) (k v k' : String) :
    hLookup (headersSet hs k v) k' = if k' = k then some v else hLookup hs k' := by
  induction hs with
  | nil =>
    by_cases h : k' = k
    · subst h; simp [headersSet, hLookup]
    · simp [headersSet, hLookup, h, Ne.symm h]
  | cons p rest ih =>
    obtain ⟨k0, v0⟩ := p
    by_cases h0 : k0 = k
    · subst h0
      by_cases h1 : k' = k0
      · subst h1; simp [headersSet, hLookup]
      · simp [headersSet, hLookup, h1, Ne.symm h1]
    · by_cases h1 : k' = k0
      · subst h1
        simp [headersSet, hLookup, h0, Ne.symm h0]
      · simp [headersSet, hLookup, h0, h1, Ne.symm h1, ih]

theorem hLookup_setAll (entries acc : List (String × String)) (k : String) :
    hLookup (setAll acc entries) k = orOpt (lastWrite entries k) (hLookup acc k) := by
  induction entries generalizing acc with
  | nil => simp [setAll, lastWrite, orOpt]
  | cons p rest ih =>
    obtain ⟨k0, v0⟩ := p
    have hstep : setAll acc ((k0, v0) :: rest) = setAll (headersSet acc k0 v0) rest := rfl
    rw [hstep, ih, hLookup_headersSet]
    cases hl : lastWrite rest k with
    | some v => simp [lastWrite, hl, orOpt]
    | none =>
      by_cases h : k = k0
      · subst h; simp [lastWrite, hl, orOpt]
      · simp [lastWrite, hl, orOpt, h, Ne.symm h]

theorem lastWrite_eq_none_iff (entries : List (String × String)) (k : String) :
    lastWrite entries k = none ↔ ∀ p ∈ entries, p.1 ≠ k := by
  induction entries with
  | nil => simp [lastWrite]
  | cons p rest ih =>
    obtain ⟨k0, v0⟩ := p
    by_cases h : k0 = k <;>
      simp [lastWrite, orOpt_eq_none_iff, ih, h, and_comm]

theorem foldl_spreadField (l : List (Option α)) (a : Option α) :
    l.foldl spreadField a = orOpt (lastSome l) a := by
  induction l generalizing a with
  | nil => simp [lastSome, orOpt]
  | cons x rest ih =>
    rw [List.foldl_cons, ih]
    cases hl : lastSome rest with
    | some v => simp [lastSome, hl, orOpt]
    | none => cases x <;> simp [lastSome, hl, orOpt, spreadField]

theorem mergeFold_snd (requests : List (Option RequestInit))
    (acc : RequestInit × List (String × String)) :
    (requests.foldl mergeStep acc).2 = setAll acc.2 (allHeaderEntries requests) := by
  induction requests generalizing acc with
  | nil => simp [allHeaderEntries, presentReqs, setAll]
  | cons oreq rest ih =>
    cases oreq with
    | none =>
      rw [List.foldl_cons, ih]
      simp [allHeaderEntries, presentReqs, mergeStep]
    | some req =>
      rw [List.foldl_cons, ih]
      simp [allHeaderEntries, presentReqs, mergeStep, setAll,
        List.filterMap_cons, List.foldl_append]

theorem mergeFold_fst (requests : List (Option RequestInit))
    (acc : RequestInit × List (String × String)) :
    (requests.foldl mergeStep acc).1 = (presentReqs requests).foldl spreadInit acc.1 := by
  induction requests generalizing acc with
  | nil => simp [presentReqs]
  | cons oreq rest ih =>
    cases oreq <;> rw [List.foldl_cons, ih] <;>
      simp [presentReqs, mergeStep, List.filterMap_cons]

theorem foldl_spreadInit_method (l : List RequestInit) (a : RequestInit) :
    (l.foldl spreadInit a).method = (l.map RequestInit.method).foldl spreadField a.method := by
  induction l generalizing a with
  | nil => rfl
  | cons r rest ih => rw [List.foldl_cons, ih]; rfl

theorem foldl_spreadInit_body (l : List RequestInit) (a : RequestInit) :
    (l.foldl spreadInit a).body = (l.map RequestInit.body).foldl spreadField a.body := by
  induction l generalizing a with
  | nil => rfl
  | cons r rest ih => rw [List.foldl_cons, ih]; rfl

theorem foldl_spreadInit_signal (l : List RequestInit) (a : RequestInit) :
    (l.foldl spreadInit a).signal = (l.map RequestInit.signal).foldl spreadField a.signal := by
  induction l generalizing a with
  | nil => rfl
  | cons r rest ih => rw [List.foldl_cons, ih]; rfl

theorem mergeRequests_headers_eq (requests : List (Option RequestInit)) :
    (mergeRequests requests).headers = some (setAll [] (allHeaderEntries requests)) := by
  unfold mergeRequests
  rw [mergeFold_snd]

theorem mergeRequests_hLookup (requests : List (Option RequestInit)) (k : String) :
    hLookup ((mergeRequests requests).headers.getD []) k
      = lastWrite (allHeaderEntries requests) k := by
  show hLookup ((some ((requests.foldl mergeStep ({}, [])).2)).getD []) k = _
  rw [Option.getD_some, mergeFold_snd, hLookup_setAll]
  simp [hLookup, orOpt_none_right]

theorem mergeRequests_method (requests : List (Option RequestInit)) :
    (mergeRequests requests).method
      = lastSome ((presentReqs requests).map RequestInit.method) := by
  show (requests.foldl mergeStep ({}, [])).1.method = _
  rw [mergeFold_fst, foldl_spreadInit_method, foldl_spreadField, orOpt_none_right]

theorem mergeRequests_body (requests : List (Option RequestInit)) :
    (mergeRequests requests).body
      = lastSome ((presentReqs requests).map RequestInit.body) := by
  show (requests.foldl mergeStep ({}, [])).1.body = _
  rw [mergeFold_fst, foldl_spreadInit_body, foldl_spreadField, orOpt_none_right]

theorem mergeRequests_signal (requests : List (Option RequestInit)) :
    (mergeRequests requests).signal
      = lastSome ((presentReqs requests).map RequestInit.signal) := by
  show (requests.foldl mergeStep ({}, [])).1.signal = _
  rw [mergeFold_fst, foldl_spreadInit_signal, foldl_spreadField, orOpt_none_right]

theorem builtRequest_url (ib : Infinibrowser) (url : Url) (init : RequestInit) :
    (ib.builtRequest url init).url = url := rfl

theorem builtRequest_method (ib : Infinibrowser) (url : Url) (init : RequestInit)
    (m : String) (h : init.method = some m) :
    (ib.builtRequest url init).init.method = some m := by
  show (mergeRequests _).method = some m
  rw [mergeRequests_method]
  cases hr : ib.config.request <;>
    simp [presentReqs, lastSome, orOpt, hr, h, List.filterMap_cons]

theorem builtRequest_body (ib : Infinibrowser) (url : Url) (init : RequestInit)
    (b : String) (h : init.body = some b) :
    (ib.builtRequest url init).init.body = some b := by
  show (mergeRequests _).body = some b
  rw [mergeRequests_body]
  cases hr : ib.config.request <;>
    simp [presentReqs, lastSome, orOpt, hr, h, List.filterMap_cons]

theorem fwt_components (ib : Infinibrowser) (w : World) (url : Url) (init : RequestInit) :
    (ib.fetchWithTimeout w url init).sent = [ib.builtRequest url init]
    ∧ (ib.fetchWithTimeout w url init).timersStarted = 1
    ∧ (ib.fetchWithTimeout w url init).timersCleared = 1 := by
  cases hw : w.fetch (ib.builtRequest url init) with
  | thrown e => simp [Infinibrowser.fetchWithTimeout, hw]
  | resp r =>
    cases hok : r.ok <;> cases hp : w.jsonParse r.bodyText <;>
      simp [Infinibrowser.fetchWithTimeout, hw, hok, hp]

/-! ### Claim theorems -/

/-- C1: through the timeout-guarded send, a non-2xx response whose body
parses as JSON yields the application-error result — `ok:false`,
`error_code:"NOT_OK"`, the parsed body as `data` and the raw response
handle — returned as a value, not thrown. The witness instantiates it at
the `/item` URL with the body `\x7bcode:404, message:"Unknown element"\x7d`. -/
theorem fetchWithTimeout_notOk (ib : Infinibrowser) (w : World) (url : Url)
    (init : RequestInit) (r : Response) (j : Json)
    (hf : w.fetch (ib.builtRequest url init) = .resp r)
    (hok : r.ok = false)
    (hp : w.jsonParse r.bodyText = some j) :
    (ib.fetchWithTimeout w url init).result = .notOk j r
    ∧ ((ib.fetchWithTimeout w url init).result).error_code = some "NOT_OK"
    ∧ ((ib.fetchWithTimeout w url init).result).okFlag = false := by
  have h : (ib.fetchWithTimeout w url init).result = .notOk j r := by
    simp [Infinibrowser.fetchWithTimeout, hf, hok, hp]
  exact ⟨h, by rw [h]; rfl, by rw [h]; rfl⟩

/-- Witness for C1: the 404 world at the `/item` URL produces exactly
`\x7bok:false, error_code:"NOT_OK", data: json404\x7d` with the raw 404
response. -/
theorem fetchWithTimeout_notOk_witness :
    (defaultClient.fetchWithTimeout world404
        ⟨"https://infinibrowser.wiki/api/item", [("id", "Water")]⟩
        { method := some "GET", headers := some [("Accept", "application/json")] }).result
      = .notOk json404 resp404
    ∧ ((defaultClient.fetchWithTimeout world404
        ⟨"https://infinibrowser.wiki/api/item", [("id", "Water")]⟩
        { method := some "GET", headers := some [("Accept", "application/json")] }).result).error_code
      = some "NOT_OK" := by
  have h := fetchWithTimeout_notOk defaultClient world404
    ⟨"https://infinibrowser.wiki/api/item", [("id", "Water")]⟩
    { method := some "GET", headers := some [("Accept", "application/json")] }
    resp404 json404 rfl rfl rfl
  exact ⟨h.1, h.2.1⟩

/-- C2: every exception raised during send or parse inside the
timeout-guarded send is mapped by `handleError` and returned as a
transport error, never rethrown: a JSON parse failure gives
`SYNTAX_ERROR`; the abort `DOMException` named `AbortError` gives
`TIMEOUT`; any other exception gives `UNKNOWN_ERROR` carrying the
original error value. -/
theorem handleError_exhaustive (ib : Infinibrowser) (w : World) (url : Url)
    (init : RequestInit) (e : JsError) (r : Response) :
    (w.fetch (ib.builtRequest url init) = .thrown e →
      (ib.fetchWithTimeout w url init).result = .transport (handleError e))
    ∧ handleError .SyntaxError = ⟨.SYNTAX_ERROR, .SyntaxError⟩
    ∧ (∀ name, handleError (.domException name)
        = if name = "AbortError" then ⟨.TIMEOUT, .domException name⟩
          else ⟨.UNKNOWN_ERROR, .domException name⟩)
    ∧ (∀ msg, handleError (.jsError msg) = ⟨.UNKNOWN_ERROR, .jsError msg⟩)
    ∧ (∀ msg, handleError (.typeError msg) = ⟨.UNKNOWN_ERROR, .typeError msg⟩)
    ∧ (w.fetch (ib.builtRequest url init) = .resp r → r.ok = true →
        w.jsonParse r.bodyText = none →
        (ib.fetchWithTimeout w url init).result
          = .transport ⟨.SYNTAX_ERROR, .SyntaxError⟩) := by
  refine ⟨?_, rfl, fun name => rfl, fun msg => rfl, fun msg => rfl, ?_⟩
  · intro hf
    simp [Infinibrowser.fetchWithTimeout, hf]
  · intro hf hok hp
    simp [Infinibrowser.fetchWithTimeout, hf, hok, hp, handleError]

/-- Witness for C2: an aborted fetch yields `TIMEOUT`, a plain network
error yields `UNKNOWN_ERROR` carrying it, and a 200 with a non-JSON body
yields `SYNTAX_ERROR`. -/
theorem handleError_exhaustive_witness :
    (defaultClient.fetchWithTimeout worldAbort
        ⟨"https://infinibrowser.wiki/api/item", []⟩ {}).result
      = .transport ⟨.TIMEOUT, .domException "AbortError"⟩
    ∧ (defaultClient.fetchWithTimeout worldNetDown
        ⟨"https://infinibrowser.wiki/api/item", []⟩ {}).result
      = .transport ⟨.UNKNOWN_ERROR, .jsError "connection reset"⟩
    ∧ (defaultClient.fetchWithTimeout worldBadBody200
        ⟨"https://infinibrowser.wiki/api/item", []⟩ {}).result
      = .transport ⟨.SYNTAX_ERROR, .SyntaxError⟩ := by
  refine ⟨?_, ?_, ?_⟩
  · exact (handleError_exhaustive defaultClient worldAbort
      ⟨"https://infinibrowser.wiki/api/item", []⟩ {} (.domException "AbortError") resp404).1 rfl
  · exact (handleError_exhaustive defaultClient worldNetDown
      ⟨"https://infinibrowser.wiki/api/item", []⟩ {} (.jsError "connection reset") resp404).1 rfl
  · exact (handleError_exhaustive defaultClient worldBadBody200
      ⟨"https://infinibrowser.wiki/api/item", []⟩ {} .SyntaxError
      ⟨true, 200, "OK", "<html>"⟩).2.2.2.2.2 rfl rfl rfl

/-- C9: each invocation of the timeout-guarded send returns exactly one
result value (the function is total and its outcome has a single `result`
component), hands exactly one request to `fetch`, and on every exit path
— success, application error, parse failure or thrown exception — the
cancellation timer it started is cleared: one timer started, one timer
cleared, whatever the world does. -/
theorem fetchWithTimeout_timer_cleared (ib : Infinibrowser) (w : World)
    (url : Url) (init : RequestInit) :
    (ib.fetchWithTimeout w url init).timersStarted = 1
    ∧ (ib.fetchWithTimeout w url init).timersCleared = 1
    ∧ (ib.fetchWithTimeout w url init).sent = [ib.builtRequest url init] := by
  obtain ⟨hs, h1, h2⟩ := fwt_components ib w url init
  exact ⟨h1, h2, hs⟩

/-- C10: a non-2xx response whose body is not valid JSON yields a
transport error with code `SYNTAX_ERROR`, never the `NOT_OK` application
error: `NOT_OK` requires the non-2xx body to parse as JSON. -/
theorem notOk_requires_json_body (ib : Infinibrowser) (w : World) (url : Url)
    (init : RequestInit) (r : Response)
    (hf : w.fetch (ib.builtRequest url init) = .resp r)
    (hok : r.ok = false)
    (hp : w.jsonParse r.bodyText = none) :
    (ib.fetchWithTimeout w url init).result = .transport ⟨.SYNTAX_ERROR, .SyntaxError⟩
    ∧ ∀ (j : Json) (resp : Response),
        (ib.fetchWithTimeout w url init).result ≠ .notOk j resp := by
  have h : (ib.fetchWithTimeout w url init).result
      = .transport ⟨.SYNTAX_ERROR, .SyntaxError⟩ := by
    simp [Infinibrowser.fetchWithTimeout, hf, hok, hp, handleError]
  refine ⟨h, ?_⟩
  intro j resp hcontra
  rw [h] at hcontra
  exact FetchResult.noConfusion hcontra

/-- Witness for C10: a 502 with an HTML body yields `SYNTAX_ERROR`, not
`NOT_OK`. -/
theorem notOk_requires_json_body_witness :
    (defaultClient.fetchWithTimeout worldBadBody502
        ⟨"https://infinibrowser.wiki/api/item", []⟩ {}).result
      = .transport ⟨.SYNTAX_ERROR, .SyntaxError⟩ :=
  (notOk_requires_json_body defaultClient worldBadBody502
    ⟨"https://infinibrowser.wiki/api/item", []⟩ {}
    ⟨false, 502, "Bad Gateway", "<html>"⟩ rfl rfl rfl).1

theorem appendParams_spec (ps : Params) (url : Url) :
    appendParams url ps
      = ⟨url.base, url.searchParams ++ ps.filterMap
          (fun kv => if kv.2.isNullish then none else some (kv.1, kv.2.toStringJS))⟩ := by
  induction ps generalizing url with
  | nil => simp [appendParams]
  | cons kv rest ih =>
    obtain ⟨k, v⟩ := kv
    by_cases h : v.isNullish
    · simp [appendParams, h, ih]
    · simp [appendParams, h, ih, List.append_assoc]

/-- C3: URL building keeps the query entries of the parsed base-plus-path
URL in place and appends, in the insertion order of the mapping, exactly
the parameters whose value is neither null nor undefined, each coerced by
`String(value)`; append semantics means nothing is overwritten and
duplicate keys accumulate (see the witness, where `id` appears twice). -/
theorem buildUrl_append_params (parseUrl : String → Option Url)
    (apiUrl path : String) (ps : Params) (u : Url)
    (h : parseUrl (apiUrl ++ path) = some u) :
    buildUrl parseUrl apiUrl path (some ps)
      = .ok ⟨u.base, u.searchParams ++ ps.filterMap
          (fun kv => if kv.2.isNullish then none else some (kv.1, kv.2.toStringJS))⟩ := by
  simp [buildUrl, h, appendParams_spec]

/-- Witness for C3: null and undefined are dropped, numbers and booleans
are stringified, order is preserved and the duplicate `id` accumulates. -/
theorem buildUrl_append_params_witness :
    buildUrl demoParseUrl "https://a.example" "/p"
      (some [("id", .str "Water"), ("offset", .num 0), ("skip", .null),
             ("flag", .bool true), ("id", .str "Fire"), ("gone", .undefined)])
      = .ok ⟨"https://a.example/p",
             [("id", "Water"), ("offset", "0"), ("flag", "true"), ("id", "Fire")]⟩ := by
  have h := buildUrl_append_params demoParseUrl "https://a.example" "/p"
    [("id", .str "Water"), ("offset", .num 0), ("skip", .null),
     ("flag", .bool true), ("id", .str "Fire"), ("gone", .undefined)]
    ⟨"https://a.example/p", []⟩ (by decide)
  rw [h]
  rfl

/-- C5: `mergeRequests` takes each non-header field from the last
specification that defines it (`lastSome` over the given specifications in
argument order), and merges headers additively: a key maps in the output
to the value written by the last input entry with that key (names
normalised to lowercase as `Headers` does), and is absent exactly when no
input defines it — so a header present in one input survives and a header
defined in several takes the last definition. -/
theorem mergeRequests_last_write_wins (requests : List (Option RequestInit))
    (k : String) :
    hLookup ((mergeRequests requests).headers.getD []) k
      = lastWrite (allHeaderEntries requests) k
    ∧ (hLookup ((mergeRequests requests).headers.getD []) k = none
        ↔ ∀ p ∈ allHeaderEntries requests, p.1 ≠ k)
    ∧ (mergeRequests requests).method
      = lastSome ((presentReqs requests).map RequestInit.method)
    ∧ (mergeRequests requests).body
      = lastSome ((presentReqs requests).map RequestInit.body)
    ∧ (mergeRequests requests).signal
      = lastSome ((presentReqs requests).map RequestInit.signal) := by
  refine ⟨mergeRequests_hLookup requests k, ?_, mergeRequests_method requests,
    mergeRequests_body requests, mergeRequests_signal requests⟩
  rw [mergeRequests_hLookup]
  exact lastWrite_eq_none_iff _ k

/-- C6: `shareLineage` on the empty sequence fails synchronously with the
precondition error `Error("Lineage must not be empty")`: in every world
the outcome is that escaped error — not a transport result — no request
is sent and no timer is started. -/
theorem shareLineage_empty_precondition (ib : Infinibrowser) (w : World) :
    ib.shareLineage w []
      = ⟨.error (.jsError "Lineage must not be empty"), [], 0, 0⟩ := rfl

/-- C7: for a non-empty steps sequence, `shareLineage` hands exactly one
request to `fetch`: a POST to the `/analytics/share` URL whose body is the
JSON serialisation of `\x7bid, emoji, steps\x7d`, with `id` and `emoji`
taken from the result element (third tuple component) of the last step and
`steps` the full input sequence. -/
theorem shareLineage_posts_payload (ib : Infinibrowser) (w : World)
    (steps : List LineageStep) (lastStep : LineageStep) (u : Url)
    (hlast : steps.getLast? = some lastStep)
    (hurl : w.parseUrl (ib.config.API_URL ++ "/analytics/share") = some u) :
    ∃ req : Request,
      (ib.shareLineage w steps).sent = [req]
      ∧ req.url = u
      ∧ req.init.method = some "POST"
      ∧ req.init.body = some (Json.stringify (shareLineagePayload lastStep steps)) := by
  refine ⟨ib.builtRequest u
    { method := some "POST",
      headers := some [("Content-Type", "application/json")],
      body := some (Json.stringify (shareLineagePayload lastStep steps)) }, ?_, rfl, ?_, ?_⟩
  · simp only [Infinibrowser.shareLineage, hlast, Infinibrowser.post, buildUrl, hurl,
      Option.getD_some, FWTOutcome.toCall]
    exact (fwt_components ib w u _).1
  · exact builtRequest_method ib u _ "POST" rfl
  · exact builtRequest_body ib u _ _ rfl

/-- Witness for C7 at a concrete one-step lineage against the default
client. -/
theorem shareLineage_posts_payload_witness :
    ∃ req : Request,
      (defaultClient.shareLineage worldNetDown demoSteps).sent = [req]
      ∧ req.url = ⟨"https://infinibrowser.wiki/api/analytics/share", []⟩
      ∧ req.init.method = some "POST"
      ∧ req.init.body = some (Json.stringify
          (shareLineagePayload ⟨.str "Earth", .str "Water", ⟨"Plant", "🌱"⟩⟩ demoSteps)) :=
  shareLineage_posts_payload defaultClient worldNetDown demoSteps
    ⟨.str "Earth", .str "Water", ⟨"Plant", "🌱"⟩⟩
    ⟨"https://infinibrowser.wiki/api/analytics/share", []⟩ rfl (by decide)

/-- C4 (counterexample): the claim predicts `$refined` merges
request-option headers key-by-key (`specHeaderMerge` is that claimed
merge, under which the base's `x-base` header survives). In the code the
override's whole `request` object replaces the base's, so after refining
`cfgBase` with `cfgOver` the `x-base` header — present in the base and
absent from the override — is gone. -/
theorem refined_drops_base_headers :
    hLookup (configHeaders ((Infinibrowser.mk cfgBase).refined cfgOver).config) "x-base"
      = none
    ∧ hLookup (specHeaderMerge (configHeaders cfgBase) (configHeaders cfgOver)) "x-base"
      = some "1"
    ∧ hLookup (configHeaders cfgBase) "x-base" = some "1" := ⟨rfl, rfl, rfl⟩

/-- C4 (amended): `$refined` returns a new client (the receiver is left
untouched; the source allocates a fresh object) whose config is the
shallow top-level spread of the current config and the override: `API_URL`
and `timeout` come from the override, and the whole `request` options
object — headers included — is the override's when the override carries
one and otherwise the base's; headers are not merged key-by-key. -/
theorem refined_shallow_merge (self : Infinibrowser) (config : InfinibrowserConfig) :
    (self.refined config).config.API_URL = config.API_URL
    ∧ (self.refined config).config.timeout = config.timeout
    ∧ (config.request = none → (self.refined config).config.request = self.config.request)
    ∧ ∀ r, config.request = some r → (self.refined config).config.request = some r := by
  refine ⟨rfl, rfl, ?_, ?_⟩
  · intro h
    simp [Infinibrowser.refined, spreadField, h]
  · intro r h
    simp [Infinibrowser.refined, spreadField, h]

/-- Witness for the amended C4: refining `cfgBase` with `cfgOver` replaces
the request options wholesale; refining with an override that carries no
request options keeps the base's. -/
theorem refined_shallow_merge_witness :
    ((Infinibrowser.mk cfgBase).refined cfgOver).config.request
      = some { headers := some [("x-extra", "2")] }
    ∧ ((Infinibrowser.mk cfgBase).refined
        { API_URL := "https://c.example", timeout := 9 }).config.request
      = cfgBase.request := by
  constructor
  · exact (refined_shallow_merge (Infinibrowser.mk cfgBase) cfgOver).2.2.2
      { headers := some [("x-extra", "2")] } rfl
  · exact (refined_shallow_merge (Infinibrowser.mk cfgBase)
      { API_URL := "https://c.example", timeout := 9 }).2.2.1 rfl

/-- C8 (counterexample): with a malformed base URL the `TypeError` thrown
by `new URL` inside `buildUrl` escapes `getItem` uncaught — the outcome is
a thrown exception, not a discriminated result value, although this call
is not the `shareLineage` empty-steps precondition check. No request is
sent. -/
theorem getItem_bad_base_url_throws :
    (badUrlClient.getItem worldNetDown "Water").result
      = .error (.typeError "Invalid URL")
    ∧ (badUrlClient.getItem worldNetDown "Water").sent = [] := ⟨rfl, rfl⟩

/-- C8 (amended): provided URL construction succeeds (the base-plus-path
string parses), every outcome of the GET and POST primitives, of
`getItem`, and of a non-empty `shareLineage` is returned as a
discriminated result value, never thrown; the exceptions the claim must
allow for are the empty-steps precondition and a `TypeError` from a
malformed base URL. -/
theorem results_not_thrown_when_url_parses (ib : Infinibrowser) (w : World)
    (path : String) (params : Option Params) (payload : Option Json)
    (steps : List LineageStep) (id : String) :
    ((w.parseUrl (ib.config.API_URL ++ path)).isSome →
      (∃ res, (ib.get w path params).result = .ok res)
      ∧ ∃ res, (ib.post w path params payload).result = .ok res)
    ∧ ((w.parseUrl (ib.config.API_URL ++ "/item")).isSome →
      ∃ res, (ib.getItem w id).result = .ok res)
    ∧ (steps ≠ [] →
      (w.parseUrl (ib.config.API_URL ++ "/analytics/share")).isSome →
      ∃ res, (ib.shareLineage w steps).result = .ok res) := by
  refine ⟨?_, ?_, ?_⟩
  · intro h
    obtain ⟨u, hu⟩ := Option.isSome_iff_exists.mp h
    constructor
    · refine ⟨(ib.fetchWithTimeout w
        (match params with | none => u | some ps => appendParams u ps)
        { method := some "GET", headers := some [("Accept", "application/json")] }).result, ?_⟩
      simp [Infinibrowser.get, buildUrl, hu, FWTOutcome.toCall]
    · refine ⟨(ib.fetchWithTimeout w
        (match params with | none => u | some ps => appendParams u ps)
        { method := some "POST", headers := some [("Content-Type", "application/json")],
          body := some (Json.stringify (payload.getD (.obj []))) }).result, ?_⟩
      simp [Infinibrowser.post, buildUrl, hu, FWTOutcome.toCall]
  · intro h
    obtain ⟨u, hu⟩ := Option.isSome_iff_exists.mp h
    refine ⟨(ib.fetchWithTimeout w (appendParams u [("id", .str id)])
      { method := some "GET", headers := some [("Accept", "application/json")] }).result, ?_⟩
    simp [Infinibrowser.getItem, Infinibrowser.get, buildUrl, hu, FWTOutcome.toCall]
  · intro hne h
    obtain ⟨u, hu⟩ := Option.isSome_iff_exists.mp h
    cases hlast : steps.getLast? with
    | none =>
      rw [List.getLast?_eq_none_iff] at hlast
      exact absurd hlast hne
    | some lastStep =>
      refine ⟨(ib.fetchWithTimeout w u
        { method := some "POST", headers := some [("Content-Type", "application/json")],
          body := some (Json.stringify (shareLineagePayload lastStep steps)) }).result, ?_⟩
      simp [Infinibrowser.shareLineage, hlast, Infinibrowser.post, buildUrl, hu,
        FWTOutcome.toCall]

/-- Witness for the amended C8: with the default (well-formed) base URL
both a GET and a non-empty `shareLineage` come back as result values even
when the network is down. -/
theorem results_not_thrown_witness :
    (∃ res, (defaultClient.get worldNetDown "/item" none).result = .ok res)
    ∧ ∃ res, (defaultClient.shareLineage worldNetDown demoSteps).result = .ok res := by
  constructor
  · exact ((results_not_thrown_when_url_parses defaultClient worldNetDown "/item"
      none none demoSteps "Water").1 (by decide)).1
  · exact (results_not_thrown_when_url_parses defaultClient worldNetDown "/item"
      none none demoSteps "Water").2.2 (by simp [demoSteps]) (by decide)
